import Mathlib

/-
Shallow embedding of the interaction core of a desktop chess application
(source file: chess.py, class ChessGame).  The controller owns the board,
the selected square, the last engine move, the current evaluation score
and the delayed-engine-move timer; raw pygame events drive a step function.

The chess rules library and the Stockfish engine are external collaborators:
the rules library is abstracted as a record of operations (RulesEngine), and
every engine call is abstracted by an outcome value describing what the call
returned (or that it raised).  Python code that can crash with an uncaught
exception is embedded as an Option-valued function, where `none` means an
uncaught exception escapes the handler and kills the event loop.

Scores are embedded as rationals: the Python code manipulates floats, but
every operation involved (division by 100, comparison with 5.0, min/max)
is exact at the values the program produces, so ℚ is a faithful idealisation.
-/

namespace ChessApp

/-- Board pixel extent, from ChessGame where WIDTH, HEIGHT = 800, 400 and
BOARD_SIZE = 400. -/
def BOARD_SIZE : Nat := 400

/-- Square pixel size, from SQUARE_SIZE = BOARD_SIZE // 8. -/
def SQUARE_SIZE : Nat := BOARD_SIZE / 8

/-- A chess move as the controller builds it: chess.Move(from_square,
to_square) with an optional promotion piece code. -/
structure Mv where
  fromSq : Nat
  toSq : Nat
  promo : Option Nat
deriving DecidableEq

/-- The rules-library surface actually used by chess.py: piece_at (the code
only ever reads the color of the returned piece, a Bool), turn, membership
in legal_moves, push, pop, reset, is_game_over and the move-stack length.
Kept abstract: the controller claims hold for every rules engine. -/
structure RulesEngine (Pos : Type) where
  pieceAt : Pos → Nat → Option Bool
  turn : Pos → Bool
  isLegal : Pos → Mv → Bool
  push : Pos → Mv → Pos
  pop : Pos → Pos
  reset : Pos
  isGameOver : Pos → Bool
  moveCount : Pos → Nat

/-- The mutable state of ChessGame that the event loop touches: board,
selected_square, last_ai_move, current_score, ai_move_scheduled, and the
pygame timer armed for AI_MOVE_EVENT (set by schedule_ai_move, cleared only
in the AI_MOVE_EVENT handler). -/
structure GameState (Pos : Type) where
  board : Pos
  selected : Option Nat
  lastAiMove : Option Mv
  currentScore : ℚ
  aiMoveScheduled : Bool
  timerArmed : Bool
deriving DecidableEq

/-- Outcome of stockfish.get_evaluation() as seen by get_evaluation_score:
either the call (or set_fen_position) raised, which the except clause
catches, or it returned a dict whose type and value keys may each be
present or absent.  Indexing a missing key raises KeyError, and that
happens outside the try block. -/
inductive EvalOutcome where
  | raised : EvalOutcome
  | resp : Option String → Option Int → EvalOutcome

/-- Outcome of stockfish.get_best_move() as seen by ai_move: the call
raised (caught, leaving best_uci = None), returned None, returned a string
that chess.Move.from_uci rejects (ValueError, uncaught), or returned a
string parsing to a move. -/
inductive BestOutcome where
  | raised : BestOutcome
  | noMove : BestOutcome
  | badUci : BestOutcome
  | uciMove : Mv → BestOutcome

/-- The clamp applied on the final line of get_evaluation_score:
max(-5.0, min(5.0, raw_score)). -/
def clamp5 (q : ℚ) : ℚ := max (-5) (min 5 q)

/-- ChessGame.get_evaluation_score.  `eng` is the truthiness of
self.stockfish; `some q` is a returned float, `none` an uncaught exception
(KeyError from indexing the evaluation dict outside the try block). -/
def get_evaluation_score (eng : Bool) (out : EvalOutcome) : Option ℚ :=
  if eng then
    match out with
    | .raised => some 0
    | .resp t v =>
      match t with
      | none => none
      | some ty =>
        if ty = "cp" then
          match v with
          | none => none
          | some n => some (clamp5 ((n : ℚ) / 100))
        else if ty = "mate" then
          match v with
          | none => none
          | some n => some (clamp5 (if 0 < n then (5 : ℚ) else -5))
        else some (clamp5 0)
  else some 0

/-- ChessGame.ai_move.  Returns the new board and last_ai_move, or `none`
when chess.Move.from_uci raises on a malformed best-move string (that call
sits outside the try block). -/
def ai_move {Pos : Type} (eng : Bool) (R : RulesEngine Pos) (board : Pos)
    (last : Option Mv) (out : BestOutcome) : Option (Pos × Option Mv) :=
  if eng then
    match out with
    | .raised => some (board, last)
    | .noMove => some (board, last)
    | .badUci => none
    | .uciMove m =>
      if R.isLegal board m then some (R.push board m, some m)
      else some (board, last)
  else some (board, last)

/-- Pixel-to-square mapping from the MOUSEBUTTONDOWN handler:
col = x // SQUARE_SIZE, row = y // SQUARE_SIZE, square = (7 - row)*8 + col. -/
def clickSquare (x y : Nat) : Nat :=
  (7 - y / SQUARE_SIZE) * 8 + x / SQUARE_SIZE

/-- Horizontal top-left pixel of a square, from highlight_square:
col = square % 8, pixel x = col * SQUARE_SIZE. -/
def squarePixelX (square : Nat) : Nat := square % 8 * SQUARE_SIZE

/-- Vertical top-left pixel of a square, from highlight_square:
row = 7 - square // 8, pixel y = row * SQUARE_SIZE. -/
def squarePixelY (square : Nat) : Nat := (7 - square / 8) * SQUARE_SIZE

/-- One pygame event as dispatched by the loop in ChessGame.run.  Events
carrying an EvalOutcome and BestOutcome record what the external engine
would answer if the handler queries it during that event. -/
inductive Event where
  | click : Nat → Nat → EvalOutcome → Event
  | keyU : EvalOutcome → Event
  | keyR : EvalOutcome → Event
  | keyOther : Event
  | aiTimer : BestOutcome → EvalOutcome → Event

/-- One iteration of the event dispatch in ChessGame.run, for one event.
`none` means an uncaught exception escapes the loop body. -/
def step {Pos : Type} (eng : Bool) (R : RulesEngine Pos) (s : GameState Pos)
    (e : Event) : Option (GameState Pos) :=
  match e with
  | .click x y ev =>
    if R.isGameOver s.board then some s
    else if x < BOARD_SIZE ∧ y < BOARD_SIZE then
      let sq := clickSquare x y
      match s.selected with
      | none =>
        match R.pieceAt s.board sq with
        | some c =>
          if c = R.turn s.board then some { s with selected := some sq }
          else some s
        | none => some s
      | some src =>
        if R.isLegal s.board ⟨src, sq, none⟩ then
          let b := R.push s.board ⟨src, sq, none⟩
          match get_evaluation_score eng ev with
          | none => none
          | some q =>
            if R.isGameOver b then
              some { s with board := b, selected := none, currentScore := q }
            else
              some { s with
                board := b, selected := none, currentScore := q,
                aiMoveScheduled := true, timerArmed := true }
        else some { s with selected := none }
    else some s
  | .keyU ev =>
    if 1 ≤ R.moveCount s.board then
      match get_evaluation_score eng ev with
      | none => none
      | some q => some { s with board := R.pop s.board, currentScore := q }
    else some s
  | .keyR ev =>
    match get_evaluation_score eng ev with
    | none => none
    | some q =>
      some { s with
        board := R.reset, selected := none, lastAiMove := none,
        currentScore := q }
  | .keyOther => some s
  | .aiTimer best ev =>
    if R.isGameOver s.board then
      some { s with aiMoveScheduled := false, timerArmed := false }
    else
      match ai_move eng R s.board s.lastAiMove best with
      | none => none
      | some (b, last) =>
        match get_evaluation_score eng ev with
        | none => none
        | some q =>
          some { s with
            aiMoveScheduled := false, timerArmed := false,
            board := b, lastAiMove := last, currentScore := q }

/-- State built by ChessGame.__init__: fresh board, no selection, no last
engine move, score 0.0, no timer armed. -/
def initGame {Pos : Type} (R : RulesEngine Pos) : GameState Pos :=
  { board := R.reset, selected := none, lastAiMove := none, currentScore := 0,
    aiMoveScheduled := false, timerArmed := false }

/-- Reachable controller states: the state left by the constructor, the
state after the evaluation assignment at the top of run(), and closure
under non-crashing event steps. -/
inductive Reachable {Pos : Type} (eng : Bool) (R : RulesEngine Pos) :
    GameState Pos → Prop where
  | init : Reachable eng R (initGame R)
  | preEval : ∀ ev q, get_evaluation_score eng ev = some q →
      Reachable eng R { initGame R with currentScore := q }
  | next : ∀ {s e s'}, Reachable eng R s → step eng R s e = some s' →
      Reachable eng R s'

/-- A small concrete rules engine used to evaluate the controller on
explicit inputs: a position is its move stack, squares 0 to 15 hold white
pieces and squares 48 to 63 black pieces, a move is legal when both squares
are on the board and distinct, and the game ends after three moves. -/
def toyRules : RulesEngine (List Mv) where
  pieceAt := fun _ sq =>
    if sq < 16 then some true else if 48 ≤ sq then some false else none
  turn := fun pos => pos.length % 2 == 0
  isLegal := fun _ m => decide (m.fromSq < 64 ∧ m.toSq < 64 ∧ m.fromSq ≠ m.toSq)
  push := fun pos m => m :: pos
  pop := fun pos => pos.tail
  reset := []
  isGameOver := fun pos => decide (3 ≤ pos.length)
  moveCount := fun pos => pos.length

/-- Initial state over the toy rules. -/
def st0 : GameState (List Mv) := initGame toyRules

/-- After clicking pixel (0, 350): square 0 holds a white piece and white
is to move, so it becomes selected. -/
def st1 : GameState (List Mv) := { st0 with selected := some 0 }

/-- After clicking pixel (0, 250): the move from square 0 to square 16 is
legal, is pushed, the score is recomputed and the engine timer is armed. -/
def st2 : GameState (List Mv) :=
  { board := [⟨0, 16, none⟩], selected := none, lastAiMove := none,
    currentScore := 0, aiMoveScheduled := true, timerArmed := true }

/-- After clicking pixel (0, 50) while the timer is armed: square 48 holds
a black piece and black is to move, so it becomes selected. -/
def st3 : GameState (List Mv) := { st2 with selected := some 48 }

/-- After pressing the undo key in st3: the move is popped and the score
recomputed, but selection and the armed timer are left untouched. -/
def st4 : GameState (List Mv) := { st3 with board := [] }

/-- After the still-armed timer fires in st4: the engine move from square 8
to square 24 is applied to the post-undo board. -/
def st5 : GameState (List Mv) :=
  { st4 with
    board := [⟨8, 24, none⟩], lastAiMove := some ⟨8, 24, none⟩,
    aiMoveScheduled := false, timerArmed := false }

/-- After pressing the restart key in st2: board reset, selection and last
engine move cleared, score recomputed, but the timer flags left untouched. -/
def st2r : GameState (List Mv) := { st2 with board := [] }

/-- After the still-armed timer fires in st2r: the engine applies its move
to the freshly reset board. -/
def st2r2 : GameState (List Mv) :=
  { st2r with
    board := [⟨8, 24, none⟩], lastAiMove := some ⟨8, 24, none⟩,
    aiMoveScheduled := false, timerArmed := false }

/-- Game-over state over the toy rules: three moves played. -/
def stGO : GameState (List Mv) :=
  { st0 with board := [⟨0, 16, none⟩, ⟨48, 32, none⟩, ⟨16, 24, none⟩] }

theorem st1_step : step true toyRules st0 (Event.click 0 350 EvalOutcome.raised) = some st1 := by
  decide

theorem st2_step : step true toyRules st1 (Event.click 0 250 EvalOutcome.raised) = some st2 := by
  decide

theorem st3_step : step true toyRules st2 (Event.click 0 50 EvalOutcome.raised) = some st3 := by
  decide

theorem st1_reach : Reachable true toyRules st1 :=
  Reachable.next Reachable.init st1_step

theorem st2_reach : Reachable true toyRules st2 :=
  Reachable.next st1_reach st2_step

theorem st3_reach : Reachable true toyRules st3 :=
  Reachable.next st2_reach st3_step

theorem clamp5_bounds (q : ℚ) : -5 ≤ clamp5 q ∧ clamp5 q ≤ 5 := by
  unfold clamp5
  exact ⟨le_max_left _ _, max_le (by norm_num) (min_le_left _ _)⟩

theorem clamp5_of_bounds {q : ℚ} (h1 : -5 ≤ q) (h2 : q ≤ 5) : clamp5 q = q := by
  unfold clamp5
  rw [min_eq_right h2, max_eq_right h1]

theorem eval_ok_bounds {eng : Bool} {out : EvalOutcome} {q : ℚ}
    (h : get_evaluation_score eng out = some q) : -5 ≤ q ∧ q ≤ 5 := by
  unfold get_evaluation_score at h
  split at h
  · cases out with
    | raised =>
      cases h
      norm_num
    | resp t v =>
      cases t with
      | none => exact Option.noConfusion h
      | some ty =>
        by_cases hcp : ty = "cp"
        · simp only [hcp, if_pos rfl] at h
          cases v with
          | none => exact Option.noConfusion h
          | some n =>
            cases h
            exact clamp5_bounds _
        · by_cases hm : ty = "mate"
          · simp only [hcp, hm, if_neg, if_pos rfl, reduceIte] at h
            cases v with
            | none => exact Option.noConfusion h
            | some n =>
              cases h
              exact clamp5_bounds _
          · simp only [hcp, hm, reduceIte] at h
            cases h
            exact clamp5_bounds _
  · cases h
    norm_num

theorem step_score_cases {Pos : Type} {eng : Bool} {R : RulesEngine Pos}
    {s s' : GameState Pos} {e : Event} (h : step eng R s e = some s') :
    s'.currentScore = s.currentScore ∨
      ∃ out, get_evaluation_score eng out = some s'.currentScore := by
  cases e <;> simp only [step] at h <;> repeat' split at h
  all_goals
    first
      | exact Option.noConfusion h
      | (injection h with h
         subst h
         first
           | exact Or.inl rfl
           | exact Or.inr ⟨_, by assumption⟩)

/-- C1: the spec requires that an undo issued while the engine-move
countdown is armed clears any pending selection and cancels the timer, so
that when the countdown would have fired no engine move is applied.  The
undo handler only pops the move and recomputes the evaluation: from the
reachable state st3 (countdown armed, square 48 selected), undo yields st4
with the timer still armed and the selection still set, and when the timer
then fires the engine move is applied, taking the board away from the
post-undo position (st4 board is empty, st5 board holds the engine move). -/
theorem c1_undo_keeps_countdown :
    Reachable true toyRules st3 ∧
    st3.timerArmed = true ∧
    step true toyRules st3 (Event.keyU EvalOutcome.raised) = some st4 ∧
    st4.board = toyRules.pop st3.board ∧
    st4.timerArmed = true ∧
    st4.selected = some 48 ∧
    step true toyRules st4
      (Event.aiTimer (BestOutcome.uciMove ⟨8, 24, none⟩) EvalOutcome.raised) = some st5 ∧
    st4.board = [] ∧
    st5.board = [⟨8, 24, none⟩] :=
  ⟨st3_reach, by decide, by decide, by decide, by decide, by decide, by decide,
   by decide, by decide⟩

/-- C2: the spec requires that restart cancels any pending engine-move
countdown, leaving no pending countdown.  The restart handler resets the
board and clears selection and last engine move, but never touches the
timer: from the reachable state st2 (countdown armed), restart yields st2r
with the timer still armed, and when the timer then fires the engine
applies a move to the freshly reset board. -/
theorem c2_restart_keeps_countdown :
    Reachable true toyRules st2 ∧
    st2.timerArmed = true ∧
    step true toyRules st2 (Event.keyR EvalOutcome.raised) = some st2r ∧
    st2r.board = toyRules.reset ∧
    st2r.selected = none ∧
    st2r.lastAiMove = none ∧
    st2r.timerArmed = true ∧
    st2r.aiMoveScheduled = true ∧
    step true toyRules st2r
      (Event.aiTimer (BestOutcome.uciMove ⟨8, 24, none⟩) EvalOutcome.raised) = some st2r2 ∧
    st2r2.board = [⟨8, 24, none⟩] :=
  ⟨st2_reach, by decide, by decide, by decide, by decide, by decide, by decide,
   by decide, by decide, by decide⟩

/-- C3 counterexample: not every advisor failure is non-fatal.  A returned
evaluation whose dict lacks the value key (or the type key) is indexed
outside the try block, and a best-move string rejected by
chess.Move.from_uci raises outside the try block; all three propagate as
crashes (`none`) instead of degrading to 0.0 or a skipped turn. -/
theorem c3_crash_on_malformed :
    get_evaluation_score true (EvalOutcome.resp (some "cp") none) = none ∧
    get_evaluation_score true (EvalOutcome.resp none (some 42)) = none ∧
    ai_move true toyRules [] none BestOutcome.badUci = none :=
  ⟨by decide, by decide, by decide⟩

/-- C3 amended: a raised exception during the advisor calls and a missing
engine are treated as non-fatal at both call sites — evaluation degrades to
0.0 and the engine turn is a no-op — but a malformed successful response
(an evaluation dict missing a key, or a non-UCI best-move string) is parsed
outside the protected region and crashes the loop. -/
theorem c3_caught_failures :
    (∀ eng : Bool, get_evaluation_score eng EvalOutcome.raised = some 0) ∧
    (∀ out : EvalOutcome, get_evaluation_score false out = some 0) ∧
    (∀ (Pos : Type) (R : RulesEngine Pos) (b : Pos) (last : Option Mv),
      ai_move true R b last BestOutcome.raised = some (b, last) ∧
      ai_move true R b last BestOutcome.noMove = some (b, last)) ∧
    (∀ (Pos : Type) (R : RulesEngine Pos) (b : Pos) (last : Option Mv)
      (out : BestOutcome), ai_move false R b last out = some (b, last)) :=
  ⟨fun eng => by cases eng <;> rfl, fun out => rfl,
   fun Pos R b last => ⟨rfl, rfl⟩, fun Pos R b last out => rfl⟩

/-- C4: evaluation retrieval maps a centipawn score v to v/100 (clamped;
exactly v/100 whenever |v| ≤ 500), maps a forced-mate indication to +5 or
-5 according to the sign of its value, returns 0 when the engine is
missing or the call raised, and every returned score lies in [-5, 5]. -/
theorem c4_evaluation_mapping :
    (∀ n : Int, get_evaluation_score true (EvalOutcome.resp (some "cp") (some n)) =
      some (clamp5 ((n : ℚ) / 100))) ∧
    (∀ n : Int, -500 ≤ n → n ≤ 500 →
      get_evaluation_score true (EvalOutcome.resp (some "cp") (some n)) =
        some ((n : ℚ) / 100)) ∧
    (∀ n : Int, 0 < n →
      get_evaluation_score true (EvalOutcome.resp (some "mate") (some n)) = some 5) ∧
    (∀ n : Int, n < 0 →
      get_evaluation_score true (EvalOutcome.resp (some "mate") (some n)) = some (-5)) ∧
    (∀ out : EvalOutcome, get_evaluation_score false out = some 0) ∧
    get_evaluation_score true EvalOutcome.raised = some 0 ∧
    (∀ (eng : Bool) (out : EvalOutcome) (q : ℚ),
      get_evaluation_score eng out = some q → -5 ≤ q ∧ q ≤ 5) := by
  refine ⟨?_, ?_, ?_, ?_, fun out => rfl, rfl, fun eng out q h => eval_ok_bounds h⟩
  · intro n
    simp [get_evaluation_score]
  · intro n h1 h2
    have h1q : (-500 : ℚ) ≤ (n : ℚ) := by exact_mod_cast h1
    have h2q : ((n : ℚ)) ≤ 500 := by exact_mod_cast h2
    have hc : clamp5 ((n : ℚ) / 100) = (n : ℚ) / 100 :=
      clamp5_of_bounds (by linarith) (by linarith)
    simp [get_evaluation_score, hc]
  · intro n hn
    have hc : clamp5 (5 : ℚ) = 5 := clamp5_of_bounds (by norm_num) (by norm_num)
    simp [get_evaluation_score, hn, hc]
  · intro n hn
    have hn2 : ¬(0 < n) := by omega
    have hc : clamp5 (-5 : ℚ) = -5 := clamp5_of_bounds (by norm_num) (by norm_num)
    simp [get_evaluation_score, hn2, hc]

/-- C4 witness: a +123 centipawn response yields 1.23 and a mate-in-two
against the mover yields exactly -5. -/
theorem c4_evaluation_mapping_witness :
    get_evaluation_score true (EvalOutcome.resp (some "cp") (some 123)) =
      some ((123 : ℚ) / 100) ∧
    get_evaluation_score true (EvalOutcome.resp (some "mate") (some (-2))) =
      some (-5) :=
  ⟨c4_evaluation_mapping.2.1 123 (by norm_num) (by norm_num),
   c4_evaluation_mapping.2.2.2.1 (-2) (by norm_num)⟩

theorem ai_move_raised {Pos : Type} (eng : Bool) (R : RulesEngine Pos) (b : Pos)
    (last : Option Mv) : ai_move eng R b last BestOutcome.raised = some (b, last) := by
  cases eng <;> rfl

theorem ai_move_noMove {Pos : Type} (eng : Bool) (R : RulesEngine Pos) (b : Pos)
    (last : Option Mv) : ai_move eng R b last BestOutcome.noMove = some (b, last) := by
  cases eng <;> rfl

theorem ai_move_illegal {Pos : Type} (eng : Bool) (R : RulesEngine Pos) (b : Pos)
    (last : Option Mv) (m : Mv) (h : R.isLegal b m = false) :
    ai_move eng R b last (BestOutcome.uciMove m) = some (b, last) := by
  cases eng <;> simp [ai_move, h]

theorem ai_move_legal {Pos : Type} (R : RulesEngine Pos) (b : Pos)
    (last : Option Mv) (m : Mv) (h : R.isLegal b m = true) :
    ai_move true R b last (BestOutcome.uciMove m) = some (R.push b m, some m) := by
  simp [ai_move, h]

/-- C5: square-to-pixel (from highlight_square) and pixel-to-square (from
the click handler) are exact inverses: every square 0..63 maps to its
top-left pixel and back to itself, and every top-left corner pixel on the
board maps to a square and back to the same pixel. -/
theorem c5_pixel_roundtrip :
    (∀ s : Nat, s < 64 → clickSquare (squarePixelX s) (squarePixelY s) = s) ∧
    (∀ cx : Nat, cx < 8 → ∀ cy : Nat, cy < 8 →
      squarePixelX (clickSquare (cx * SQUARE_SIZE) (cy * SQUARE_SIZE)) =
        cx * SQUARE_SIZE ∧
      squarePixelY (clickSquare (cx * SQUARE_SIZE) (cy * SQUARE_SIZE)) =
        cy * SQUARE_SIZE) := by
  constructor <;> decide

/-- C5 witness: square 27 round-trips through its top-left pixel. -/
theorem c5_pixel_roundtrip_witness :
    clickSquare (squarePixelX 27) (squarePixelY 27) = 27 :=
  c5_pixel_roundtrip.1 27 (by decide)

/-- C6: a board-area click on a destination square for which the candidate
move (selected, clicked) is not in the legal-move set leaves the whole
state unchanged except that the selection is cleared, returning the
controller to awaiting a human selection. -/
theorem c6_illegal_destination {Pos : Type} (eng : Bool) (R : RulesEngine Pos)
    (s : GameState Pos) (x y src : Nat) (ev : EvalOutcome)
    (hsel : s.selected = some src)
    (hgo : R.isGameOver s.board = false)
    (hx : x < BOARD_SIZE) (hy : y < BOARD_SIZE)
    (hleg : R.isLegal s.board ⟨src, clickSquare x y, none⟩ = false) :
    step eng R s (Event.click x y ev) = some { s with selected := none } := by
  simp [step, hsel, hgo, hx, hy, hleg]

/-- C6 witness: with square 0 selected, clicking square 0 again is an
illegal candidate move and only the selection is cleared. -/
theorem c6_illegal_destination_witness :
    step true toyRules st1 (Event.click 0 350 EvalOutcome.raised) =
      some { st1 with selected := none } :=
  c6_illegal_destination true toyRules st1 0 350 0 EvalOutcome.raised (by decide)
    (by decide) (by decide) (by decide) (by decide)

/-- C7 counterexample: the claim says an advisor returning no usable move
leaves the board unchanged and passes the turn back; but a best-move string
that chess.Move.from_uci rejects is parsed outside the try block, so the
timer-event handler crashes instead of completing as a no-op. -/
theorem c7_crash_on_bad_uci :
    step true toyRules st2 (Event.aiTimer BestOutcome.badUci EvalOutcome.raised) =
      none := by
  decide

/-- C7 amended: when the timer event is processed, the timer is disarmed;
if the game is over neither the advisor nor the evaluation is consulted and
no move is applied; a raised call or a returned None skips the turn with
the board unchanged; a parsed suggestion is applied and recorded as the
last engine move only when it is in the legal-move set, and an illegal
parsed suggestion leaves the board unchanged; but a best-move string that
fails UCI parsing crashes the handler (see the counterexample). -/
theorem c7_timer_transition {Pos : Type} (eng : Bool) (R : RulesEngine Pos)
    (s : GameState Pos) :
    (R.isGameOver s.board = true →
      ∀ (best : BestOutcome) (ev : EvalOutcome),
        step eng R s (Event.aiTimer best ev) =
          some { s with aiMoveScheduled := false, timerArmed := false }) ∧
    (R.isGameOver s.board = false →
      ∀ (ev : EvalOutcome) (q : ℚ), get_evaluation_score eng ev = some q →
        (step eng R s (Event.aiTimer BestOutcome.raised ev) =
          some { s with
            aiMoveScheduled := false, timerArmed := false, currentScore := q }) ∧
        (step eng R s (Event.aiTimer BestOutcome.noMove ev) =
          some { s with
            aiMoveScheduled := false, timerArmed := false, currentScore := q }) ∧
        (∀ m : Mv, eng = true → R.isLegal s.board m = true →
          step eng R s (Event.aiTimer (BestOutcome.uciMove m) ev) =
            some { s with
              aiMoveScheduled := false, timerArmed := false,
              board := R.push s.board m, lastAiMove := some m,
              currentScore := q }) ∧
        (∀ m : Mv, R.isLegal s.board m = false →
          step eng R s (Event.aiTimer (BestOutcome.uciMove m) ev) =
            some { s with
              aiMoveScheduled := false, timerArmed := false,
              currentScore := q })) := by
  constructor
  · intro hgo best ev
    simp [step, hgo]
  · intro hgo ev q hq
    refine ⟨?_, ?_, ?_, ?_⟩
    · simp [step, hgo, ai_move_raised, hq]
    · simp [step, hgo, ai_move_noMove, hq]
    · intro m heng hm
      subst heng
      simp [step, hgo, ai_move_legal R s.board s.lastAiMove m hm, hq]
    · intro m hm
      simp [step, hgo, ai_move_illegal eng R s.board s.lastAiMove m hm, hq]

/-- C7 witness: with the countdown armed and the advisor call raising, the
timer event disarms the timer and skips the engine turn. -/
theorem c7_timer_transition_witness :
    step true toyRules st2 (Event.aiTimer BestOutcome.raised EvalOutcome.raised) =
      some { st2 with
        aiMoveScheduled := false, timerArmed := false, currentScore := 0 } :=
  ((c7_timer_transition true toyRules st2).2 (by decide) EvalOutcome.raised 0
    (by decide)).1

/-- C8: a board-area click with no square selected selects the clicked
square exactly when it holds a piece of the side to move; an opponent piece
or an empty square leaves the entire state unchanged. -/
theorem c8_first_click_select {Pos : Type} (eng : Bool) (R : RulesEngine Pos)
    (s : GameState Pos) (x y : Nat) (ev : EvalOutcome)
    (hsel : s.selected = none) (hgo : R.isGameOver s.board = false)
    (hx : x < BOARD_SIZE) (hy : y < BOARD_SIZE) :
    (∀ c : Bool, R.pieceAt s.board (clickSquare x y) = some c →
      c = R.turn s.board →
      step eng R s (Event.click x y ev) =
        some { s with selected := some (clickSquare x y) }) ∧
    (∀ c : Bool, R.pieceAt s.board (clickSquare x y) = some c →
      c ≠ R.turn s.board →
      step eng R s (Event.click x y ev) = some s) ∧
    (R.pieceAt s.board (clickSquare x y) = none →
      step eng R s (Event.click x y ev) = some s) := by
  refine ⟨fun c hc ht => ?_, fun c hc ht => ?_, fun hc => ?_⟩
  · simp [step, hsel, hgo, hx, hy, hc, ht]
  · simp [step, hsel, hgo, hx, hy, hc, ht]
  · simp [step, hsel, hgo, hx, hy, hc]

/-- C8 witness: from the initial state, clicking pixel (0, 350) lands on
square 0, which holds a white piece with white to move, so it is selected. -/
theorem c8_first_click_select_witness :
    step true toyRules st0 (Event.click 0 350 EvalOutcome.raised) =
      some { st0 with selected := some (clickSquare 0 350) } :=
  (c8_first_click_select true toyRules st0 0 350 EvalOutcome.raised (by decide)
    (by decide) (by decide) (by decide)).1 true (by decide) (by decide)

/-- C9: the score starts at 0, every event handler changes it only to a
value returned by get_evaluation_score, and every return value of
get_evaluation_score lies in [-5, 5]; hence the score lies in [-5, 5] in
every reachable state. -/
theorem c9_score_invariant {Pos : Type} (eng : Bool) (R : RulesEngine Pos) :
    (initGame R).currentScore = 0 ∧
    (∀ (s : GameState Pos) (e : Event) (s2 : GameState Pos),
      step eng R s e = some s2 →
      s2.currentScore = s.currentScore ∨
        ∃ out, get_evaluation_score eng out = some s2.currentScore) ∧
    (∀ s : GameState Pos, Reachable eng R s →
      -5 ≤ s.currentScore ∧ s.currentScore ≤ 5) := by
  refine ⟨rfl, fun s e s2 h => step_score_cases h, fun s hs => ?_⟩
  induction hs with
  | init => exact ⟨by norm_num [initGame], by norm_num [initGame]⟩
  | preEval ev q hq => exact eval_ok_bounds hq
  | next hr hstep ih =>
    rcases step_score_cases hstep with heq | ⟨out, hout⟩
    · rw [heq]
      exact ih
    · exact eval_ok_bounds hout

/-- C9 witness: the invariant holds at the initial state. -/
theorem c9_score_invariant_witness :
    -5 ≤ (initGame toyRules).currentScore ∧ (initGame toyRules).currentScore ≤ 5 :=
  (c9_score_invariant true toyRules).2.2 (initGame toyRules) Reachable.init

/-- C10: in a game-over position, board clicks are ignored entirely, while
the undo and restart keys still act: undo with a non-empty move stack pops
the most recent (game-ending) move and restart resets the board. -/
theorem c10_gameover_commands {Pos : Type} (eng : Bool) (R : RulesEngine Pos)
    (s : GameState Pos) (hgo : R.isGameOver s.board = true) :
    (∀ (x y : Nat) (ev : EvalOutcome),
      step eng R s (Event.click x y ev) = some s) ∧
    (∀ (ev : EvalOutcome) (q : ℚ), get_evaluation_score eng ev = some q →
      1 ≤ R.moveCount s.board →
      step eng R s (Event.keyU ev) =
        some { s with board := R.pop s.board, currentScore := q }) ∧
    (∀ (ev : EvalOutcome) (q : ℚ), get_evaluation_score eng ev = some q →
      step eng R s (Event.keyR ev) =
        some { s with
          board := R.reset, selected := none, lastAiMove := none,
          currentScore := q }) := by
  refine ⟨fun x y ev => ?_, fun ev q hq hc => ?_, fun ev q hq => ?_⟩
  · simp [step, hgo]
  · simp [step, hq, hc]
  · simp [step, hq]

/-- C10 witness: in the game-over state stGO a click is a no-op, undo pops
the game-ending move, and the popped position is no longer game over. -/
theorem c10_gameover_commands_witness :
    step true toyRules stGO (Event.click 0 350 EvalOutcome.raised) = some stGO ∧
    step true toyRules stGO (Event.keyU EvalOutcome.raised) =
      some { stGO with board := toyRules.pop stGO.board, currentScore := 0 } ∧
    toyRules.isGameOver stGO.board = true ∧
    toyRules.isGameOver (toyRules.pop stGO.board) = false :=
  ⟨(c10_gameover_commands true toyRules stGO (by decide)).1 0 350 EvalOutcome.raised,
   (c10_gameover_commands true toyRules stGO (by decide)).2.1 EvalOutcome.raised 0
     (by decide) (by decide),
   by decide, by decide⟩

end ChessApp
